import Mathlib

/-!
# Verification of the IDEEZA analytics core

Shallow embedding of `analytics/services.py` and `analytics/views.py`:
the dynamic filter compiler (`apply_dynamic_filters` / `parse_filter`),
the time-window resolver (`get_time_range`), the growth calculator
(`calculate_growth_percentage`), the three aggregation strategies
(`get_blog_views_analytics`, `get_top_analytics`, `get_performance_analytics`)
and the pager (`paginate_results`).

Modelling conventions:
* Timestamps are integers (one unit = one day, matching the `timedelta(days=n)`
  arithmetic used by the source); the ambient `timezone.now()` and the
  calendar computations (midnight of day/week/month/year, datetime
  truncation, `strftime` period labels) are passed in as explicit
  parameters, since every claim treats those values as opaque.
* JSON filter expressions are an inductive `Json` type; Django `Q` objects
  are an inductive `Q` with Django's `_combine` semantics (combining with
  an *empty* `Q` — no children — returns the other operand unchanged, so the
  empty `Q` is the identity of both `&` and `|` and matches every record).
* Python exceptions are `Except String`; `parse_filter`'s recursion is
  implemented with a fuel argument (`fuel = jsize expr` always suffices,
  see `parse_filterGo_congr`), keeping every definition computable.
* One deliberate simplification, irrelevant to every claim below: under
  `and`/`or` the source iterates whatever Python object sits there; here a
  non-sequence value raises, as Python does for every non-iterable value.
-/

/-- JSON values, as delivered by the request layer to the filter compiler. -/
inductive Json where
  | null : Json
  | bool : Bool → Json
  | num : Int → Json
  | str : String → Json
  | arr : List Json → Json
  | obj : List (String × Json) → Json

mutual

/-- Size measure on JSON values, used as recursion fuel. -/
def jsize : Json → Nat
  | .null => 1
  | .bool _ => 1
  | .num _ => 1
  | .str _ => 1
  | .arr xs => 1 + jsizeL xs
  | .obj kvs => 1 + jsizeO kvs

/-- Size of a JSON array's elements. -/
def jsizeL : List Json → Nat
  | [] => 0
  | x :: xs => jsize x + jsizeL xs

/-- Size of a JSON object's values. -/
def jsizeO : List (String × Json) → Nat
  | [] => 0
  | (_, v) :: xs => jsize v + jsizeO xs

end

mutual

/-- Structural equality of JSON values (Python `==`). -/
def jbeq : Json → Json → Bool
  | .null, .null => true
  | .bool a, .bool b => a == b
  | .num a, .num b => a == b
  | .str a, .str b => a == b
  | .arr a, .arr b => jbeqL a b
  | .obj a, .obj b => jbeqO a b
  | _, _ => false

/-- Elementwise equality of JSON arrays. -/
def jbeqL : List Json → List Json → Bool
  | [], [] => true
  | x :: xs, y :: ys => jbeq x y && jbeqL xs ys
  | _, _ => false

/-- Entrywise equality of JSON objects. -/
def jbeqO : List (String × Json) → List (String × Json) → Bool
  | [], [] => true
  | (k, v) :: xs, (k', v') :: ys => k == k' && jbeq v v' && jbeqO xs ys
  | _, _ => false

end

/-- Python truthiness of a JSON value (`if not filters:` in the source). -/
def jsonFalsy : Json → Bool
  | .null => true
  | .bool b => !b
  | .num n => n == 0
  | .str s => s == ""
  | .arr xs => xs.isEmpty
  | .obj kvs => kvs.isEmpty

/-- First-match association-list lookup (Python `dict[k]`; dict keys are
unique, so the first match is the only match). -/
def alookup (kvs : List (String × Json)) (k : String) : Option Json :=
  match kvs with
  | [] => none
  | (k₀, v₀) :: rest => if k₀ = k then some v₀ else alookup rest k

/-- Django `Q` objects. `empty` is `Q()` (no children); `base kvs` is
`Q(**kvs)` (a conjunction of field-equality tests); the remaining
constructors are the combined nodes produced by `&`, `|` and `~`. -/
inductive Q where
  | empty : Q
  | base : List (String × Json) → Q
  | qand : Q → Q → Q
  | qor : Q → Q → Q
  | qnot : Q → Q

/-- A `Q` with no children is falsy in Django (`Q()` and `Q(**{})`). -/
def Q.isEmptyQ : Q → Bool
  | .empty => true
  | .base kvs => kvs.isEmpty
  | _ => false

/-- Django `Q.__and__` via `Q._combine`: an empty operand is dropped, so
`Q()` is the identity of `&`. -/
def Q.combAnd (a b : Q) : Q :=
  if b.isEmptyQ then a else if a.isEmptyQ then b else .qand a b

/-- Django `Q.__or__` via `Q._combine`: an empty operand is dropped, so
`Q()` is the identity of `|` as well. -/
def Q.combOr (a b : Q) : Q :=
  if b.isEmptyQ then a else if a.isEmptyQ then b else .qor a b

/-- `parse_filter`, fuelled.  Mirrors the source's operator precedence:
`eq`, then `and`, then `or`, then `not`; the first key found wins and all
other keys of the mapping are ignored.  A non-mapping expression raises
`Filter must be a dictionary`; a mapping with none of the four operator
keys raises `Unknown filter operator`; `Q(**v)` with a non-mapping `v`
raises (Python `TypeError` on `**`). -/
def parse_filterGo : Nat → Json → Except String Q
  | 0, _ => .error "out of fuel"
  | fuel + 1, e =>
    match e with
    | .obj kvs =>
      match alookup kvs "eq" with
      | some (.obj m) => .ok (Q.base m)
      | some _ => .error "eq value must be a mapping"
      | none =>
        match alookup kvs "and" with
        | some (.arr es) =>
          es.foldlM (fun q sub => (parse_filterGo fuel sub).map (Q.combAnd q)) Q.empty
        | some _ => .error "and value must be a sequence"
        | none =>
          match alookup kvs "or" with
          | some (.arr es) =>
            es.foldlM (fun q sub => (parse_filterGo fuel sub).map (Q.combOr q)) Q.empty
          | some _ => .error "or value must be a sequence"
          | none =>
            match alookup kvs "not" with
            | some v => (parse_filterGo fuel v).map Q.qnot
            | none => .error "Unknown filter operator"
    | _ => .error "Filter must be a dictionary"

/-- `parse_filter` from `analytics/services.py`: `jsize` fuel always
suffices (`parse_filterGo_congr`). -/
def parse_filter (e : Json) : Except String Q :=
  parse_filterGo (jsize e) e

/-- Is the JSON value a mapping? -/
def Json.isObj : Json → Bool
  | .obj _ => true
  | _ => false

/-- The success fragment of the filter grammar as the spec words it
(§4.1): a single-key mapping whose key is one of the four operators, with
`eq` carrying a field mapping, `and`/`or` carrying a sequence of
sub-expressions and `not` carrying one sub-expression. -/
inductive SpecAccepts : Json → Prop where
  | eq (m : List (String × Json)) : SpecAccepts (.obj [("eq", .obj m)])
  | and (es : List Json) (h : ∀ e ∈ es, SpecAccepts e) :
      SpecAccepts (.obj [("and", .arr es)])
  | or (es : List Json) (h : ∀ e ∈ es, SpecAccepts e) :
      SpecAccepts (.obj [("or", .arr es)])
  | not (e : Json) (h : SpecAccepts e) : SpecAccepts (.obj [("not", e)])

/-- The failure condition of the claim: the expression itself, or some
nested sub-expression (an element of an `and`/`or` sequence or the value
of a `not`), is not a mapping or is a mapping whose single key is not one
of the four operators. -/
inductive FailsAt : Json → Prop where
  | notMapping (e : Json) (h : e.isObj = false) : FailsAt e
  | badKey (k : String) (v : Json)
      (h : k ≠ "eq" ∧ k ≠ "and" ∧ k ≠ "or" ∧ k ≠ "not") : FailsAt (.obj [(k, v)])
  | andElem (es : List Json) (e : Json) (he : e ∈ es) (h : FailsAt e) :
      FailsAt (.obj [("and", .arr es)])
  | orElem (es : List Json) (e : Json) (he : e ∈ es) (h : FailsAt e) :
      FailsAt (.obj [("or", .arr es)])
  | notSub (e : Json) (h : FailsAt e) : FailsAt (.obj [("not", e)])

/-- One row of the `blog_views` event log (model `BlogView` joined with its
related rows, as the aggregation queries see it). `authorName` is the
author of the viewed blog; `countryName`/`username` are the event's own
nullable references. -/
structure ViewRec where
  viewedAt : Int
  blogId : Nat
  blogTitle : String
  authorId : Nat
  authorName : Option String
  countryName : Option String
  username : Option String
deriving DecidableEq

/-- One row of the `blogs` table, as the performance strategy sees it. -/
structure BlogRec where
  createdAt : Int
  authorId : Nat
deriving DecidableEq

/-- Field-path resolution for the filter predicate: the relational paths
the dataset exposes. A nullable reference resolves to SQL `NULL`
(`Json.null`); unknown paths also resolve to `NULL` (the claims never
exercise Django's `FieldError` on unknown paths). -/
def fieldGet (r : ViewRec) : String → Json
  | "country__name" => match r.countryName with | some s => .str s | none => .null
  | "user__username" => match r.username with | some s => .str s | none => .null
  | "blog__title" => .str r.blogTitle
  | "blog__author__username" => match r.authorName with | some s => .str s | none => .null
  | "blog__author_id" => .num r.authorId
  | "blog_id" => .num r.blogId
  | _ => .null

/-- Evaluate a `Q` object against one record: `Q(**kvs)` is a conjunction
of field equalities, the empty `Q` constrains nothing. -/
def evalQ (r : ViewRec) : Q → Bool
  | .empty => true
  | .base kvs => kvs.all (fun kv => jbeq (fieldGet r kv.1) kv.2)
  | .qand a b => evalQ r a && evalQ r b
  | .qor a b => evalQ r a || evalQ r b
  | .qnot a => !evalQ r a

/-- `apply_dynamic_filters` from `analytics/services.py`: a missing or
falsy `filters` value returns the queryset untouched, otherwise the
compiled `Q` filters it; any compilation error is re-raised as
`Invalid filter format` (the spec's `FilterSyntaxError`). -/
def apply_dynamic_filters (queryset : List ViewRec) (filters : Option Json) :
    Except String (List ViewRec) :=
  match filters with
  | none => .ok queryset
  | some j =>
    if jsonFalsy j then .ok queryset
    else
      match parse_filter j with
      | .error e => .error ("Invalid filter format: " ++ e)
      | .ok q => .ok (queryset.filter (fun r => evalQ r q))

/-- `get_time_range` from `analytics/services.py`. The four calendar
starts (midnight of today / this week's Monday / the 1st of this month /
Jan 1 of this year) are opaque inputs `dayS weekS monthS yearS`, computed
from `now` in the source. -/
def get_time_range (range_type : String) (start_date end_date : Option Int)
    (now dayS weekS monthS yearS : Int) : Except String (Option Int × Option Int) :=
  if start_date.isSome && end_date.isSome then .ok (start_date, end_date)
  else if range_type = "all" then .ok (none, none)
  else if range_type = "day" then .ok (some (start_date.getD dayS), some (end_date.getD now))
  else if range_type = "week" then .ok (some (start_date.getD weekS), some (end_date.getD now))
  else if range_type = "month" then .ok (some (start_date.getD monthS), some (end_date.getD now))
  else if range_type = "year" then .ok (some (start_date.getD yearS), some (end_date.getD now))
  else .error ("Invalid range_type: " ++ range_type)

/-- Time-window filtering as the source inlines it in both event-set
strategies: `__gte` on the start bound, `__lte` on the end bound, each
applied only when the bound is present. -/
def applyWindowBy (timeOf : α → Int) (s e : Option Int) (xs : List α) : List α :=
  let xs₁ := match s with
    | some s' => xs.filter (fun x => decide (s' ≤ timeOf x))
    | none => xs
  match e with
  | some e' => xs₁.filter (fun x => decide (timeOf x ≤ e'))
  | none => xs₁

/-- Python `x or default` on a nullable string (both `None` and `""` are
falsy). -/
def pyOr (s : Option String) (d : String) : String :=
  match s with
  | none => d
  | some t => if t = "" then d else t

/-- `{x, y, z}` row of the grouped-totals strategy. -/
structure XYZRec where
  x : String
  y : Nat
  z : Nat
deriving DecidableEq

/-- `{x, y, z}` row of the top-N strategy (`y` is string-typed there). -/
structure TopRec where
  x : String
  y : String
  z : Nat
deriving DecidableEq

/-- `{x, y, z}` row of the performance strategy (`z` is the growth
percentage). -/
structure PerfRec where
  x : String
  y : Nat
  z : ℚ
deriving DecidableEq

/-- Distinct count of referenced blogs (`Count('blog__id', distinct=True)`). -/
def distinctBlogCount (grp : List ViewRec) : Nat :=
  (grp.map ViewRec.blogId).dedup.length

/-- `values(key).annotate(blog_count=..., view_count=...)`: one row per
distinct key with the distinct-blog count and the event count. -/
def groupRows [DecidableEq κ] (key : ViewRec → κ) (qs : List ViewRec) :
    List (κ × Nat × Nat) :=
  (qs.map key).dedup.map (fun g =>
    (g, distinctBlogCount (qs.filter (fun v => decide (key v = g))),
      (qs.filter (fun v => decide (key v = g))).length))

/-- `order_by('-<z>')`: sort rows descending by a numeric column. -/
def sortDescBy (z : α → Nat) (l : List α) : List α :=
  List.insertionSort (fun a b => z b ≤ z a) l

/-- `get_blog_views_analytics` from `analytics/services.py`. -/
def get_blog_views_analytics (object_type range_type : String) (filters : Option Json)
    (start_date end_date : Option Int) (now dayS weekS monthS yearS : Int)
    (views : List ViewRec) : Except String (List XYZRec) :=
  (get_time_range range_type start_date end_date now dayS weekS monthS yearS).bind
    fun se =>
    (apply_dynamic_filters (applyWindowBy ViewRec.viewedAt se.1 se.2 views) filters).bind
    fun qs =>
      if object_type = "country" then
        .ok ((sortDescBy (fun r => r.2.2) (groupRows ViewRec.countryName qs)).map
          (fun r => ⟨pyOr r.1 "Unknown", r.2.1, r.2.2⟩))
      else if object_type = "user" then
        .ok ((sortDescBy (fun r => r.2.2) (groupRows ViewRec.username qs)).map
          (fun r => ⟨pyOr r.1 "Anonymous", r.2.1, r.2.2⟩))
      else .error ("Invalid object_type: " ++ object_type)

/-- `get_top_analytics` from `analytics/services.py`: group, order by
total views descending, truncate to 10, shape. The `blog` branch groups
by the (title, author) pair and does not use the distinct count. -/
def get_top_analytics (top range_type : String) (filters : Option Json)
    (start_date end_date : Option Int) (now dayS weekS monthS yearS : Int)
    (views : List ViewRec) : Except String (List TopRec) :=
  (get_time_range range_type start_date end_date now dayS weekS monthS yearS).bind
    fun se =>
    (apply_dynamic_filters (applyWindowBy ViewRec.viewedAt se.1 se.2 views) filters).bind
    fun qs =>
      if top = "user" then
        .ok (((sortDescBy (fun r => r.2.2) (groupRows ViewRec.authorName qs)).take 10).map
          (fun r => ⟨pyOr r.1 "Unknown", toString r.2.1, r.2.2⟩))
      else if top = "country" then
        .ok (((sortDescBy (fun r => r.2.2) (groupRows ViewRec.countryName qs)).take 10).map
          (fun r => ⟨pyOr r.1 "Unknown", toString r.2.1, r.2.2⟩))
      else if top = "blog" then
        .ok (((sortDescBy (fun r => r.2.2)
            (groupRows (fun v => (v.blogTitle, v.authorName)) qs)).take 10).map
          (fun r => ⟨r.1.1, pyOr r.1.2 "Unknown", r.2.2⟩))
      else .error ("Invalid top type: " ++ top)

/-- Banker's rounding to an integer (Python `round` on an exact value). -/
def roundHalfEven (x : ℚ) : ℤ :=
  let f := ⌊x⌋
  if x - f < 1 / 2 then f
  else if 1 / 2 < x - f then f + 1
  else if Even f then f else f + 1

/-- Python `round(x, 2)` on an exact value. -/
def round2 (x : ℚ) : ℚ := (roundHalfEven (x * 100) : ℚ) / 100

/-- `calculate_growth_percentage` from `analytics/services.py`. -/
def calculate_growth_percentage (current previous : Int) : ℚ :=
  if previous = 0 then (if 0 < current then 100 else 0)
  else round2 ((current - previous : ℚ) / (previous : ℚ) * 100)

/-- Association-list lookup on integer keys (Python `dict` access; the
maps built below always have distinct keys). -/
def kfind : List (Int × β) → Int → Option β
  | [], _ => none
  | (k₀, v₀) :: rest, k => if k₀ = k then some v₀ else kfind rest k

/-- `dict.get`-with-default flavour of `kfind`. -/
def kfindD (m : List (Int × β)) (k : Int) (d : β) : β := (kfind m k).getD d

/-- The key list of an association list. -/
def mkeys (m : List (Int × β)) : List Int := m.map Prod.fst

/-- Python `dict[k] = v`: overwrite in place if the key exists, else
append. -/
def setKey : List (Int × β) → Int → β → List (Int × β)
  | [], k, v => [(k, v)]
  | (k₀, v₀) :: rest, k, v =>
    if k₀ = k then (k, v) :: rest else (k₀, v₀) :: setKey rest k v

/-- First loop of the merge in `get_performance_analytics`: seed the
period map with `{blog_count, view_count: 0}` from the blog stats. (The
source also skips falsy periods; truncated datetimes are never falsy, so
that guard has no effect and is omitted.) -/
def perfPhase1 : List (Int × Nat × Nat) → List (Int × Nat) → List (Int × Nat × Nat)
  | m, [] => m
  | m, (p, c) :: rest => perfPhase1 (setKey m p (c, 0)) rest

/-- Second loop of the merge: default a missing period to
`{blog_count: 0, view_count: 0}`, then set its `view_count`. -/
def perfPhase2 : List (Int × Nat × Nat) → List (Int × Nat) → List (Int × Nat × Nat)
  | m, [] => m
  | m, (p, c) :: rest => perfPhase2 (setKey m p ((kfindD m p (0, 0)).1, c)) rest

/-- The merged `period_map` of `get_performance_analytics`. -/
def buildPeriodMap (bs vs : List (Int × Nat)) : List (Int × Nat × Nat) :=
  perfPhase2 (perfPhase1 [] bs) vs

/-- The growth walk of `get_performance_analytics`: visit the sorted
periods carrying `previous_views`. -/
def perfWalk (label : Int → String) (m : List (Int × Nat × Nat)) :
    List Int → Int → List PerfRec
  | [], _ => []
  | p :: ps, prev =>
    let data := kfindD m p (0, 0)
    { x := label p ++ " (" ++ toString data.1 ++ " blogs)",
      y := data.2,
      z := calculate_growth_percentage data.2 prev }
      :: perfWalk label m ps (data.2 : Int)

/-- Merge the two per-period stats and walk them in ascending period
order — the tail of `get_performance_analytics`. -/
def mergeAndWalk (label : Int → String) (bs vs : List (Int × Nat)) : List PerfRec :=
  let m := buildPeriodMap bs vs
  perfWalk label m (List.insertionSort (· ≤ ·) (mkeys m)) 0

/-- Modelled from the spec (§4.3 merge step), for comparison with the
code's `mergeAndWalk`: take the union of the period keys, each side
defaulting to 0 when missing, sort ascending, and walk carrying
`previousViews`. -/
def specPerfWalk (label : Int → String) (bs vs : List (Int × Nat)) :
    List Int → Int → List PerfRec
  | [], _ => []
  | p :: ps, prev =>
    let bc := kfindD bs p 0
    let vc := kfindD vs p 0
    { x := label p ++ " (" ++ toString bc ++ " blogs)",
      y := vc,
      z := calculate_growth_percentage vc prev }
      :: specPerfWalk label bs vs ps (vc : Int)

/-- Modelled from the spec (§4.3): the whole merge-and-walk as the spec
describes it. -/
def specPerfSeries (label : Int → String) (bs vs : List (Int × Nat)) : List PerfRec :=
  specPerfWalk label bs vs
    (List.insertionSort (· ≤ ·) ((mkeys bs ++ mkeys vs).dedup)) 0

/-- `values('period').annotate(...).order_by('period')`: one row per
distinct truncated period, ascending, with the row count. -/
def aggregateByPeriod (periodOf : α → Int) (xs : List α) : List (Int × Nat) :=
  (List.insertionSort (· ≤ ·) ((xs.map periodOf).dedup)).map
    (fun p => (p, xs.countP (fun x => decide (periodOf x = p))))

/-- Python `if user_id:` on the optional actor (0 is falsy). -/
def pyTruthyNat : Option Nat → Bool
  | none => false
  | some n => n != 0

/-- `author_id=user_id` narrowing of the blog set. -/
def userFilterB (user_id : Option Nat) (blogs : List BlogRec) : List BlogRec :=
  if pyTruthyNat user_id then blogs.filter (fun b => b.authorId == user_id.getD 0)
  else blogs

/-- `blog__author_id=user_id` narrowing of the event set. -/
def userFilterV (user_id : Option Nat) (views : List ViewRec) : List ViewRec :=
  if pyTruthyNat user_id then views.filter (fun v => v.authorId == user_id.getD 0)
  else views

/-- The default lookback start of `get_performance_analytics` when no
explicit bound is given (time unit: one day; 12 weeks = 84 days). -/
def perf_startDate (compare : String) (start_date end_date : Option Int)
    (now : Int) : Option Int :=
  if start_date = none ∧ end_date = none then
    some (if compare = "day" then now - 30
      else if compare = "week" then now - 84
      else if compare = "month" then now - 365
      else now - 3 * 365)
  else start_date

/-- The narrowed blog set of the performance strategy: actor filter and
time window only — the dynamic filter is never applied here. -/
def perf_blogQ (compare : String) (user_id : Option Nat)
    (start_date end_date : Option Int) (now : Int) (blogs : List BlogRec) :
    List BlogRec :=
  applyWindowBy BlogRec.createdAt
    (perf_startDate compare start_date end_date now) end_date
    (userFilterB user_id blogs)

/-- The event set of the performance strategy before the dynamic filter:
actor filter and time window. -/
def perf_viewQraw (compare : String) (user_id : Option Nat)
    (start_date end_date : Option Int) (now : Int) (views : List ViewRec) :
    List ViewRec :=
  applyWindowBy ViewRec.viewedAt
    (perf_startDate compare start_date end_date now) end_date
    (userFilterV user_id views)

/-- Per-period blog-creation counts of the performance strategy. -/
def perf_bs (compare : String) (user_id : Option Nat)
    (start_date end_date : Option Int) (now : Int) (trunc : Int → Int)
    (blogs : List BlogRec) : List (Int × Nat) :=
  aggregateByPeriod (fun b => trunc b.createdAt)
    (perf_blogQ compare user_id start_date end_date now blogs)

/-- Per-period view counts over an (already filtered) event set. -/
def perf_vs (trunc : Int → Int) (filtered : List ViewRec) : List (Int × Nat) :=
  aggregateByPeriod (fun v => trunc v.viewedAt) filtered

/-- The merged `period_map` of the performance strategy. -/
def perf_map (compare : String) (user_id : Option Nat)
    (start_date end_date : Option Int) (now : Int) (trunc : Int → Int)
    (blogs : List BlogRec) (filtered : List ViewRec) : List (Int × Nat × Nat) :=
  buildPeriodMap (perf_bs compare user_id start_date end_date now trunc blogs)
    (perf_vs trunc filtered)

/-- `get_performance_analytics` from `analytics/services.py`. `trunc` is
the Django `Trunc*` function selected by `compare` (opaque here) and
`label` is `get_period_label(·, compare)` (opaque `strftime` formatting). -/
def get_performance_analytics (compare : String) (user_id : Option Nat)
    (filters : Option Json) (start_date end_date : Option Int) (now : Int)
    (trunc : Int → Int) (label : Int → String)
    (blogs : List BlogRec) (views : List ViewRec) : Except String (List PerfRec) :=
  if compare = "day" ∨ compare = "week" ∨ compare = "month" ∨ compare = "year" then
    (apply_dynamic_filters
        (perf_viewQraw compare user_id start_date end_date now views) filters).bind
      fun filtered =>
      .ok (mergeAndWalk label
        (perf_bs compare user_id start_date end_date now trunc blogs)
        (perf_vs trunc filtered))
  else .error ("Invalid compare type: " ++ compare)

/-- The paginated envelope returned by `paginate_results`. -/
structure PageOut (α : Type) where
  count : Nat
  page : Int
  page_size : Int
  total_pages : Int
  results : List α
deriving DecidableEq

/-- Clamp one Python slice index (step 1): negatives count from the end,
then clamp into `[0, n]`. -/
def pySliceIdx (n : Nat) (i : Int) : Nat :=
  if i < 0 then (n + i).toNat else min i.toNat n

/-- Python `l[a:b]` with step 1. -/
def pySlice (l : List α) (a b : Int) : List α :=
  (l.take (pySliceIdx l.length b)).drop (pySliceIdx l.length a)

/-- `paginate_results` from `analytics/views.py` (the `math.ceil` over
float division is modelled as the exact rational ceiling). -/
def paginate_results (results : List α) (page page_size : Int) : PageOut α :=
  let total_count := results.length
  let total_pages : Int :=
    if 0 < page_size then ⌈(total_count : ℚ) / (page_size : ℚ)⌉ else 0
  let start_idx := (page - 1) * page_size
  let end_idx := start_idx + page_size
  { count := total_count, page := page, page_size := page_size,
    total_pages := total_pages, results := pySlice results start_idx end_idx }

/-- A sample event record for concrete counterexamples. -/
def vUSA : ViewRec :=
  { viewedAt := 10, blogId := 1, blogTitle := "Blog 1", authorId := 1,
    authorName := some "user1", countryName := some "USA", username := some "user1" }

/-- A second sample event record, from another country. -/
def vCanada : ViewRec :=
  { viewedAt := 12, blogId := 2, blogTitle := "Blog 2", authorId := 2,
    authorName := some "user2", countryName := some "Canada", username := some "user2" }

theorem jsize_pos (e : Json) : 1 ≤ jsize e := by
  cases e <;> simp [jsize]

theorem jsizeO_lookup {kvs : List (String × Json)} {k : String} {v : Json}
    (h : alookup kvs k = some v) : jsize v ≤ jsizeO kvs := by
  induction kvs with
  | nil => simp [alookup] at h
  | cons hd tl ih =>
    obtain ⟨k₀, v₀⟩ := hd
    by_cases hk : k₀ = k
    · simp [alookup, hk] at h
      subst h
      simp [jsizeO]
    · simp [alookup, hk] at h
      have := ih h
      simp [jsizeO]
      omega

theorem jsize_lookup {kvs : List (String × Json)} {k : String} {v : Json}
    (h : alookup kvs k = some v) : jsize v < jsize (Json.obj kvs) := by
  have := jsizeO_lookup h
  simp [jsize]
  omega

theorem jsize_mem_arr {es : List Json} {e : Json} (h : e ∈ es) :
    jsize e < jsize (Json.arr es) := by
  have : jsize e ≤ jsizeL es := by
    induction es with
    | nil => simp at h
    | cons hd tl ih =>
      rcases List.mem_cons.mp h with h | h
      · subst h
        simp [jsizeL]
      · have := ih h
        simp [jsizeL]
        omega
  simp [jsize]
  omega

theorem foldlM_parse_congr {es : List Json} {n m : Nat} (comb : Q → Q → Q)
    (h : ∀ sub ∈ es, parse_filterGo n sub = parse_filterGo m sub) :
    ∀ q, es.foldlM (fun q sub => (parse_filterGo n sub).map (comb q)) q
      = es.foldlM (fun q sub => (parse_filterGo m sub).map (comb q)) q := by
  induction es with
  | nil => intro q; rfl
  | cons hd tl ih =>
    intro q
    simp only [List.foldlM_cons]
    rw [h hd (by simp)]
    cases parse_filterGo m hd with
    | error e => rfl
    | ok qe =>
      simp only [Except.map, Except.bind]
      exact ih (fun sub hs => h sub (by simp [hs])) _

theorem parse_filterGo_congr :
    ∀ (n : Nat) {m : Nat} {e : Json}, jsize e ≤ n → jsize e ≤ m →
      parse_filterGo n e = parse_filterGo m e := by
  intro n
  induction n using Nat.strong_induction_on with
  | _ n IH =>
    intro m e hn hm
    have h1 := jsize_pos e
    obtain ⟨n', rfl⟩ : ∃ k, n = k + 1 := ⟨n - 1, by omega⟩
    obtain ⟨m', rfl⟩ : ∃ k, m = k + 1 := ⟨m - 1, by omega⟩
    cases e with
    | null => rfl
    | bool b => rfl
    | num i => rfl
    | str s => rfl
    | arr xs => rfl
    | obj kvs =>
      simp only [parse_filterGo]
      cases heq : alookup kvs "eq" with
      | some v => cases v <;> rfl
      | none =>
        cases hand : alookup kvs "and" with
        | some v =>
          cases v with
          | arr es =>
            apply foldlM_parse_congr
            intro sub hsub
            have hv := jsize_lookup hand
            have hs := jsize_mem_arr hsub
            exact IH n' (by omega) (by omega) (by omega)
          | null => rfl
          | bool b => rfl
          | num i => rfl
          | str s => rfl
          | obj kvs' => rfl
        | none =>
          cases hor : alookup kvs "or" with
          | some v =>
            cases v with
            | arr es =>
              apply foldlM_parse_congr
              intro sub hsub
              have hv := jsize_lookup hor
              have hs := jsize_mem_arr hsub
              exact IH n' (by omega) (by omega) (by omega)
            | null => rfl
            | bool b => rfl
            | num i => rfl
            | str s => rfl
            | obj kvs' => rfl
          | none =>
            cases hnot : alookup kvs "not" with
            | some v =>
              have hv := jsize_lookup hnot
              show Except.map Q.qnot (parse_filterGo n' v)
                = Except.map Q.qnot (parse_filterGo m' v)
              rw [show parse_filterGo n' v = parse_filterGo m' v from
                IH n' (by omega) (by omega) (by omega)]
            | none => rfl

theorem parse_filterGo_eq {e : Json} {n : Nat} (h : jsize e ≤ n) :
    parse_filterGo n e = parse_filter e :=
  parse_filterGo_congr n h (le_refl _)

theorem jsize_single (k : String) (v : Json) :
    jsize (Json.obj [(k, v)]) = 1 + jsize v := by
  simp [jsize, jsizeO]


theorem isOk_ok (a : α) : (Except.ok a : Except ε α).isOk = true := rfl

theorem isOk_error (e : ε) : (Except.error e : Except ε α).isOk = false := rfl

theorem alookup_single (k k' : String) (v : Json) :
    alookup [(k, v)] k' = if k = k' then some v else none := rfl

theorem parse_obj_eq {kvs : List (String × Json)} {m : List (String × Json)}
    (fuel : Nat) (h : alookup kvs "eq" = some (Json.obj m)) :
    parse_filterGo (fuel + 1) (Json.obj kvs) = .ok (Q.base m) := by
  simp [parse_filterGo, h]

theorem parse_obj_and {kvs : List (String × Json)} {es : List Json} (fuel : Nat)
    (h1 : alookup kvs "eq" = none) (h2 : alookup kvs "and" = some (Json.arr es)) :
    parse_filterGo (fuel + 1) (Json.obj kvs)
      = es.foldlM (fun q sub => (parse_filterGo fuel sub).map (Q.combAnd q)) Q.empty := by
  simp [parse_filterGo, h1, h2]

theorem parse_obj_or {kvs : List (String × Json)} {es : List Json} (fuel : Nat)
    (h1 : alookup kvs "eq" = none) (h2 : alookup kvs "and" = none)
    (h3 : alookup kvs "or" = some (Json.arr es)) :
    parse_filterGo (fuel + 1) (Json.obj kvs)
      = es.foldlM (fun q sub => (parse_filterGo fuel sub).map (Q.combOr q)) Q.empty := by
  simp [parse_filterGo, h1, h2, h3]

theorem parse_obj_not {kvs : List (String × Json)} {v : Json} (fuel : Nat)
    (h1 : alookup kvs "eq" = none) (h2 : alookup kvs "and" = none)
    (h3 : alookup kvs "or" = none) (h4 : alookup kvs "not" = some v) :
    parse_filterGo (fuel + 1) (Json.obj kvs) = (parse_filterGo fuel v).map Q.qnot := by
  simp [parse_filterGo, h1, h2, h3, h4]

theorem parse_obj_unknown {kvs : List (String × Json)} (fuel : Nat)
    (h1 : alookup kvs "eq" = none) (h2 : alookup kvs "and" = none)
    (h3 : alookup kvs "or" = none) (h4 : alookup kvs "not" = none) :
    parse_filterGo (fuel + 1) (Json.obj kvs) = .error "Unknown filter operator" := by
  simp [parse_filterGo, h1, h2, h3, h4]

theorem foldlM_parse_isOk_all {es : List Json} {n : Nat} (comb : Q → Q → Q)
    (h : ∀ sub ∈ es, (parse_filterGo n sub).isOk = true) :
    ∀ q, (es.foldlM (fun q sub => (parse_filterGo n sub).map (comb q)) q).isOk
      = true := by
  induction es with
  | nil => intro q; rfl
  | cons hd tl ih =>
    intro q
    simp only [List.foldlM_cons]
    cases hh : parse_filterGo n hd with
    | error err =>
      have := h hd (by simp)
      rw [hh, isOk_error] at this
      exact absurd this (by simp)
    | ok qe =>
      exact ih (fun sub hs => h sub (by simp [hs])) (comb q qe)

theorem foldlM_parse_isOk_none {es : List Json} {n : Nat} (comb : Q → Q → Q)
    {e : Json} (he : e ∈ es) (hf : (parse_filterGo n e).isOk = false) :
    ∀ q, (es.foldlM (fun q sub => (parse_filterGo n sub).map (comb q)) q).isOk
      = false := by
  induction es with
  | nil => simp at he
  | cons hd tl ih =>
    intro q
    simp only [List.foldlM_cons]
    cases hh : parse_filterGo n hd with
    | error err => rfl
    | ok qe =>
      rcases List.mem_cons.mp he with rfl | hmem
      · rw [hh, isOk_ok] at hf
        exact absurd hf (by simp)
      · exact ih hmem (comb q qe)

theorem specAccepts_parse_ok {e : Json} (h : SpecAccepts e) :
    ∀ n, jsize e ≤ n → (parse_filterGo n e).isOk = true := by
  induction h with
  | eq m =>
    intro n hn
    obtain ⟨n₁, rfl⟩ : ∃ k, n = k + 1 :=
      ⟨n - 1, by have := jsize_pos (Json.obj [("eq", Json.obj m)]); omega⟩
    rw [parse_obj_eq n₁ ((alookup_single _ _ _).trans (if_pos rfl))]
    rfl
  | and es h ih =>
    intro n hn
    obtain ⟨n₁, rfl⟩ : ∃ k, n = k + 1 :=
      ⟨n - 1, by have := jsize_pos (Json.obj [("and", Json.arr es)]); omega⟩
    rw [jsize_single] at hn
    rw [parse_obj_and n₁ ((alookup_single _ _ _).trans (if_neg (by decide)))
      ((alookup_single _ _ _).trans (if_pos rfl))]
    apply foldlM_parse_isOk_all
    intro sub hs
    have h1 := jsize_mem_arr hs
    exact ih sub hs n₁ (by omega)
  | or es h ih =>
    intro n hn
    obtain ⟨n₁, rfl⟩ : ∃ k, n = k + 1 :=
      ⟨n - 1, by have := jsize_pos (Json.obj [("or", Json.arr es)]); omega⟩
    rw [jsize_single] at hn
    rw [parse_obj_or n₁ ((alookup_single _ _ _).trans (if_neg (by decide)))
      ((alookup_single _ _ _).trans (if_neg (by decide)))
      ((alookup_single _ _ _).trans (if_pos rfl))]
    apply foldlM_parse_isOk_all
    intro sub hs
    have h1 := jsize_mem_arr hs
    exact ih sub hs n₁ (by omega)
  | not e h ih =>
    intro n hn
    obtain ⟨n₁, rfl⟩ : ∃ k, n = k + 1 :=
      ⟨n - 1, by have := jsize_pos (Json.obj [("not", e)]); omega⟩
    rw [jsize_single] at hn
    rw [parse_obj_not n₁ ((alookup_single _ _ _).trans (if_neg (by decide)))
      ((alookup_single _ _ _).trans (if_neg (by decide)))
      ((alookup_single _ _ _).trans (if_neg (by decide)))
      ((alookup_single _ _ _).trans (if_pos rfl))]
    have := ih n₁ (by omega)
    cases hh : parse_filterGo n₁ e with
    | error err =>
      rw [hh, isOk_error] at this
      exact absurd this (by simp)
    | ok qe => rfl

theorem failsAt_parse_error {e : Json} (h : FailsAt e) :
    ∀ n, jsize e ≤ n → (parse_filterGo n e).isOk = false := by
  induction h with
  | notMapping e he =>
    intro n hn
    obtain ⟨n₁, rfl⟩ : ∃ k, n = k + 1 := ⟨n - 1, by have := jsize_pos e; omega⟩
    cases e with
    | obj kvs => simp [Json.isObj] at he
    | null => rfl
    | bool b => rfl
    | num i => rfl
    | str s => rfl
    | arr xs => rfl
  | badKey k v hk =>
    intro n hn
    obtain ⟨n₁, rfl⟩ : ∃ k', n = k' + 1 :=
      ⟨n - 1, by have := jsize_pos (Json.obj [(k, v)]); omega⟩
    rw [parse_obj_unknown n₁ ((alookup_single _ _ _).trans (if_neg hk.1))
      ((alookup_single _ _ _).trans (if_neg hk.2.1))
      ((alookup_single _ _ _).trans (if_neg hk.2.2.1))
      ((alookup_single _ _ _).trans (if_neg hk.2.2.2))]
    rfl
  | andElem es e he hf ih =>
    intro n hn
    obtain ⟨n₁, rfl⟩ : ∃ k, n = k + 1 :=
      ⟨n - 1, by have := jsize_pos (Json.obj [("and", Json.arr es)]); omega⟩
    rw [jsize_single] at hn
    rw [parse_obj_and n₁ ((alookup_single _ _ _).trans (if_neg (by decide)))
      ((alookup_single _ _ _).trans (if_pos rfl))]
    have h1 := jsize_mem_arr he
    exact foldlM_parse_isOk_none Q.combAnd he (ih n₁ (by omega)) Q.empty
  | orElem es e he hf ih =>
    intro n hn
    obtain ⟨n₁, rfl⟩ : ∃ k, n = k + 1 :=
      ⟨n - 1, by have := jsize_pos (Json.obj [("or", Json.arr es)]); omega⟩
    rw [jsize_single] at hn
    rw [parse_obj_or n₁ ((alookup_single _ _ _).trans (if_neg (by decide)))
      ((alookup_single _ _ _).trans (if_neg (by decide)))
      ((alookup_single _ _ _).trans (if_pos rfl))]
    have h1 := jsize_mem_arr he
    exact foldlM_parse_isOk_none Q.combOr he (ih n₁ (by omega)) Q.empty
  | notSub e hf ih =>
    intro n hn
    obtain ⟨n₁, rfl⟩ : ∃ k, n = k + 1 :=
      ⟨n - 1, by have := jsize_pos (Json.obj [("not", e)]); omega⟩
    rw [jsize_single] at hn
    rw [parse_obj_not n₁ ((alookup_single _ _ _).trans (if_neg (by decide)))
      ((alookup_single _ _ _).trans (if_neg (by decide)))
      ((alookup_single _ _ _).trans (if_neg (by decide)))
      ((alookup_single _ _ _).trans (if_pos rfl))]
    have := ih n₁ (by omega)
    cases hh : parse_filterGo n₁ e with
    | error err => rfl
    | ok qe =>
      rw [hh, isOk_ok] at this
      exact absurd this (by simp)

/-- C9 (amended): compilation fails whenever the expression or any nested
sub-expression (in `and`/`or`-sequence or `not` position) is a non-mapping
or a single-key mapping whose key is not one of `eq`/`and`/`or`/`not`; and
every expression built from single-operator mappings whose operator values
are well-typed (`eq`: a mapping, `and`/`or`: a sequence) compiles without
error, at any nesting depth. -/
theorem c9_filter_errors_amended :
    (∀ e, FailsAt e → (parse_filter e).isOk = false)
    ∧ (∀ e, SpecAccepts e → (parse_filter e).isOk = true) :=
  ⟨fun e h => failsAt_parse_error h (jsize e) (le_refl _),
   fun e h => specAccepts_parse_ok h (jsize e) (le_refl _)⟩

/-- C9 counterexample: `{"eq": 5}` fails to compile although neither it
nor any nested sub-expression is a non-mapping or a mapping whose single
key is outside the four operators — its single key *is* the operator
`eq` — so the claim's "exactly when" characterisation of failure is
refuted at this input. -/
theorem c9_counterexample :
    (parse_filter (Json.obj [("eq", Json.num 5)])).isOk = false
    ∧ ¬ FailsAt (Json.obj [("eq", Json.num 5)]) := by
  constructor
  · rfl
  · intro h
    generalize hE : Json.obj [("eq", Json.num 5)] = E at h
    cases h <;> (try subst hE) <;> simp_all [Json.isObj]

/-- C9 witness: a depth-5 well-typed nesting compiles, and a non-mapping
fails. -/
theorem c9_filter_errors_amended_witness :
    (parse_filter (Json.obj [("not", Json.obj [("not", Json.obj [("and",
      Json.arr [Json.obj [("or", Json.arr [Json.obj [("eq",
        Json.obj [("country__name", Json.str "USA")])]])]])])])])).isOk = true
    ∧ (parse_filter (Json.num 3)).isOk = false := by
  constructor
  · apply c9_filter_errors_amended.2
    apply SpecAccepts.not
    apply SpecAccepts.not
    apply SpecAccepts.and
    intro e he
    rw [List.mem_singleton.mp he]
    apply SpecAccepts.or
    intro e' he'
    rw [List.mem_singleton.mp he']
    exact SpecAccepts.eq _
  · exact c9_filter_errors_amended.1 _ (FailsAt.notMapping _ rfl)

theorem jsize_obj (kvs : List (String × Json)) :
    jsize (Json.obj kvs) = jsizeO kvs + 1 := by
  simp [jsize]
  omega

theorem parse_filter_obj (kvs : List (String × Json)) :
    parse_filter (Json.obj kvs) = parse_filterGo (jsizeO kvs + 1) (Json.obj kvs) := by
  rw [parse_filter, jsize_obj]

theorem parse_obj_eq_notmap {kvs : List (String × Json)} {v : Json} (fuel : Nat)
    (h : alookup kvs "eq" = some v) (hv : ∀ m, v ≠ Json.obj m) :
    parse_filterGo (fuel + 1) (Json.obj kvs) = .error "eq value must be a mapping" := by
  cases v with
  | obj m => exact absurd rfl (hv m)
  | null => simp [parse_filterGo, h]
  | bool b => simp [parse_filterGo, h]
  | num i => simp [parse_filterGo, h]
  | str s => simp [parse_filterGo, h]
  | arr es => simp [parse_filterGo, h]

theorem parse_obj_and_notseq {kvs : List (String × Json)} {v : Json} (fuel : Nat)
    (h1 : alookup kvs "eq" = none) (h2 : alookup kvs "and" = some v)
    (hv : ∀ es, v ≠ Json.arr es) :
    parse_filterGo (fuel + 1) (Json.obj kvs) = .error "and value must be a sequence" := by
  cases v with
  | arr es => exact absurd rfl (hv es)
  | null => simp [parse_filterGo, h1, h2]
  | bool b => simp [parse_filterGo, h1, h2]
  | num i => simp [parse_filterGo, h1, h2]
  | str s => simp [parse_filterGo, h1, h2]
  | obj m => simp [parse_filterGo, h1, h2]

theorem parse_obj_or_notseq {kvs : List (String × Json)} {v : Json} (fuel : Nat)
    (h1 : alookup kvs "eq" = none) (h2 : alookup kvs "and" = none)
    (h3 : alookup kvs "or" = some v) (hv : ∀ es, v ≠ Json.arr es) :
    parse_filterGo (fuel + 1) (Json.obj kvs) = .error "or value must be a sequence" := by
  cases v with
  | arr es => exact absurd rfl (hv es)
  | null => simp [parse_filterGo, h1, h2, h3]
  | bool b => simp [parse_filterGo, h1, h2, h3]
  | num i => simp [parse_filterGo, h1, h2, h3]
  | str s => simp [parse_filterGo, h1, h2, h3]
  | obj m => simp [parse_filterGo, h1, h2, h3]

/-- C10: a mapping with several operator keys is not rejected — the
operators are consulted in the fixed precedence order `eq`, `and`, `or`,
`not`, and the result is exactly the result of compiling the single-key
mapping made of the first operator key found, the other keys being
silently ignored. -/
theorem c10_multi_key_precedence (kvs : List (String × Json)) :
    (∀ m, alookup kvs "eq" = some (Json.obj m) →
      parse_filter (Json.obj kvs) = .ok (Q.base m))
    ∧ (∀ v, alookup kvs "eq" = none → alookup kvs "and" = some v →
      parse_filter (Json.obj kvs) = parse_filter (Json.obj [("and", v)]))
    ∧ (∀ v, alookup kvs "eq" = none → alookup kvs "and" = none →
      alookup kvs "or" = some v →
      parse_filter (Json.obj kvs) = parse_filter (Json.obj [("or", v)]))
    ∧ (∀ v, alookup kvs "eq" = none → alookup kvs "and" = none →
      alookup kvs "or" = none → alookup kvs "not" = some v →
      parse_filter (Json.obj kvs) = parse_filter (Json.obj [("not", v)])) := by
  refine ⟨?_, ?_, ?_, ?_⟩
  · intro m h
    rw [parse_filter_obj, parse_obj_eq _ h]
  · intro v h1 h2
    rw [parse_filter_obj, parse_filter_obj]
    have hval := jsizeO_lookup h2
    cases v with
    | arr es =>
      rw [parse_obj_and _ h1 h2,
        parse_obj_and _ ((alookup_single _ _ _).trans (if_neg (by decide)))
          ((alookup_single _ _ _).trans (if_pos rfl))]
      apply foldlM_parse_congr
      intro sub hsub
      have hs := jsize_mem_arr hsub
      simp only [jsize] at hs
      have hsv : jsize sub < jsize (Json.arr es) := jsize_mem_arr hsub
      have h0 : jsizeO [("and", Json.arr es)] = jsize (Json.arr es) := by
        simp [jsizeO]
      exact parse_filterGo_congr _ (by omega) (by omega)
    | null =>
      rw [parse_obj_and_notseq _ h1 h2 (by intro es h; exact absurd h (by simp)),
        parse_obj_and_notseq _ ((alookup_single _ _ _).trans (if_neg (by decide)))
          ((alookup_single _ _ _).trans (if_pos rfl)) (by intro es h; exact absurd h (by simp))]
    | bool b =>
      rw [parse_obj_and_notseq _ h1 h2 (by intro es h; exact absurd h (by simp)),
        parse_obj_and_notseq _ ((alookup_single _ _ _).trans (if_neg (by decide)))
          ((alookup_single _ _ _).trans (if_pos rfl)) (by intro es h; exact absurd h (by simp))]
    | num i =>
      rw [parse_obj_and_notseq _ h1 h2 (by intro es h; exact absurd h (by simp)),
        parse_obj_and_notseq _ ((alookup_single _ _ _).trans (if_neg (by decide)))
          ((alookup_single _ _ _).trans (if_pos rfl)) (by intro es h; exact absurd h (by simp))]
    | str s =>
      rw [parse_obj_and_notseq _ h1 h2 (by intro es h; exact absurd h (by simp)),
        parse_obj_and_notseq _ ((alookup_single _ _ _).trans (if_neg (by decide)))
          ((alookup_single _ _ _).trans (if_pos rfl)) (by intro es h; exact absurd h (by simp))]
    | obj m =>
      rw [parse_obj_and_notseq _ h1 h2 (by intro es h; exact absurd h (by simp)),
        parse_obj_and_notseq _ ((alookup_single _ _ _).trans (if_neg (by decide)))
          ((alookup_single _ _ _).trans (if_pos rfl)) (by intro es h; exact absurd h (by simp))]
  · intro v h1 h2 h3
    rw [parse_filter_obj, parse_filter_obj]
    have hval := jsizeO_lookup h3
    cases v with
    | arr es =>
      rw [parse_obj_or _ h1 h2 h3,
        parse_obj_or _ ((alookup_single _ _ _).trans (if_neg (by decide)))
          ((alookup_single _ _ _).trans (if_neg (by decide)))
          ((alookup_single _ _ _).trans (if_pos rfl))]
      apply foldlM_parse_congr
      intro sub hsub
      have hsv : jsize sub < jsize (Json.arr es) := jsize_mem_arr hsub
      have h0 : jsizeO [("or", Json.arr es)] = jsize (Json.arr es) := by
        simp [jsizeO]
      exact parse_filterGo_congr _ (by omega) (by omega)
    | null =>
      rw [parse_obj_or_notseq _ h1 h2 h3 (by intro es h; exact absurd h (by simp)),
        parse_obj_or_notseq _ ((alookup_single _ _ _).trans (if_neg (by decide)))
          ((alookup_single _ _ _).trans (if_neg (by decide)))
          ((alookup_single _ _ _).trans (if_pos rfl)) (by intro es h; exact absurd h (by simp))]
    | bool b =>
      rw [parse_obj_or_notseq _ h1 h2 h3 (by intro es h; exact absurd h (by simp)),
        parse_obj_or_notseq _ ((alookup_single _ _ _).trans (if_neg (by decide)))
          ((alookup_single _ _ _).trans (if_neg (by decide)))
          ((alookup_single _ _ _).trans (if_pos rfl)) (by intro es h; exact absurd h (by simp))]
    | num i =>
      rw [parse_obj_or_notseq _ h1 h2 h3 (by intro es h; exact absurd h (by simp)),
        parse_obj_or_notseq _ ((alookup_single _ _ _).trans (if_neg (by decide)))
          ((alookup_single _ _ _).trans (if_neg (by decide)))
          ((alookup_single _ _ _).trans (if_pos rfl)) (by intro es h; exact absurd h (by simp))]
    | str s =>
      rw [parse_obj_or_notseq _ h1 h2 h3 (by intro es h; exact absurd h (by simp)),
        parse_obj_or_notseq _ ((alookup_single _ _ _).trans (if_neg (by decide)))
          ((alookup_single _ _ _).trans (if_neg (by decide)))
          ((alookup_single _ _ _).trans (if_pos rfl)) (by intro es h; exact absurd h (by simp))]
    | obj m =>
      rw [parse_obj_or_notseq _ h1 h2 h3 (by intro es h; exact absurd h (by simp)),
        parse_obj_or_notseq _ ((alookup_single _ _ _).trans (if_neg (by decide)))
          ((alookup_single _ _ _).trans (if_neg (by decide)))
          ((alookup_single _ _ _).trans (if_pos rfl)) (by intro es h; exact absurd h (by simp))]
  · intro v h1 h2 h3 h4
    rw [parse_filter_obj, parse_filter_obj]
    have hval := jsizeO_lookup h4
    rw [parse_obj_not _ h1 h2 h3 h4,
      parse_obj_not _ ((alookup_single _ _ _).trans (if_neg (by decide)))
        ((alookup_single _ _ _).trans (if_neg (by decide)))
        ((alookup_single _ _ _).trans (if_neg (by decide)))
        ((alookup_single _ _ _).trans (if_pos rfl))]
    have h0 : jsizeO [("not", v)] = jsize v := by simp [jsizeO]
    rw [show parse_filterGo (jsizeO kvs) v = parse_filterGo (jsizeO [("not", v)]) v from
      parse_filterGo_congr _ (by omega) (by omega)]

/-- C10 witness: a mapping carrying both an `or` and a (malformed) `not`
key compiles via the `or` key alone — the `not` key is ignored — yielding
the empty predicate. -/
theorem c10_multi_key_precedence_witness :
    parse_filter (Json.obj [("or", Json.arr []), ("not", Json.num 3)])
      = .ok Q.empty := by
  have h := ((c10_multi_key_precedence
    [("or", Json.arr []), ("not", Json.num 3)]).2.2.1)
    (Json.arr []) rfl rfl rfl
  rw [h]
  rfl

theorem apply_filters_parsed {views : List ViewRec} {j : Json} {q : Q}
    (hj : jsonFalsy j = false) (hq : parse_filter j = .ok q) :
    apply_dynamic_filters views (some j) = .ok (views.filter (fun r => evalQ r q)) := by
  simp [apply_dynamic_filters, hj, hq]

/-- C1 counterexample: the source compiles `{"or": []}` to the *empty*
`Q()` — the identity of Django's `_combine` — so it matches every record
rather than none: a one-record set passes through unfiltered. -/
theorem c1_counterexample :
    apply_dynamic_filters [vUSA] (some (Json.obj [("or", Json.arr [])])) = .ok [vUSA]
    ∧ ([vUSA] : List ViewRec) ≠ [] := by
  constructor
  · rfl
  · simp

/-- C1 (amended): compiling `{"or": []}` and `{"and": []}` both yield the
empty predicate, so both accept every record — the `or` of an empty
sequence matches everything, exactly like the `and` of an empty
sequence. -/
theorem c1_empty_or_and (views : List ViewRec) :
    apply_dynamic_filters views (some (Json.obj [("or", Json.arr [])])) = .ok views
    ∧ apply_dynamic_filters views (some (Json.obj [("and", Json.arr [])])) = .ok views := by
  constructor
  · rw [@apply_filters_parsed views (Json.obj [("or", Json.arr [])]) Q.empty rfl rfl]
    simp [evalQ]
  · rw [@apply_filters_parsed views (Json.obj [("and", Json.arr [])]) Q.empty rfl rfl]
    simp [evalQ]

/-- C3: the growth calculator returns 100 when the previous total is 0 and
the current one is positive, 0 when both sides vanish (or the current one
is non-positive), and otherwise the exactly-rounded two-decimal percentage
change; in particular the four documented data points hold. -/
theorem c3_growth (c p : ℤ) :
    (p = 0 → 0 < c → calculate_growth_percentage c p = 100)
    ∧ (p = 0 → c ≤ 0 → calculate_growth_percentage c p = 0)
    ∧ (p ≠ 0 → calculate_growth_percentage c p = round2 ((c - p : ℚ) / (p : ℚ) * 100))
    ∧ calculate_growth_percentage 120 100 = 20
    ∧ calculate_growth_percentage 80 100 = -20
    ∧ calculate_growth_percentage 50 0 = 100
    ∧ calculate_growth_percentage 0 0 = 0 := by
  refine ⟨?_, ?_, ?_, ?_, ?_, ?_, ?_⟩
  · intro hp hc
    unfold calculate_growth_percentage
    rw [if_pos hp, if_pos hc]
  · intro hp hc
    unfold calculate_growth_percentage
    rw [if_pos hp, if_neg (not_lt.mpr hc)]
  · intro hp
    unfold calculate_growth_percentage
    rw [if_neg hp]
  · norm_num [calculate_growth_percentage, round2, roundHalfEven]
  · norm_num [calculate_growth_percentage, round2, roundHalfEven]
  · norm_num [calculate_growth_percentage]
  · norm_num [calculate_growth_percentage]

/-- C3 witness: the theorem instantiated at `(7, 5)` and `(3, 0)`. -/
theorem c3_growth_witness :
    calculate_growth_percentage 7 5
      = round2 ((((7 : ℤ) : ℚ) - ((5 : ℤ) : ℚ)) / ((5 : ℤ) : ℚ) * 100)
    ∧ calculate_growth_percentage 3 0 = 100 :=
  ⟨(c3_growth 7 5).2.2.1 (by decide), (c3_growth 3 0).1 rfl (by decide)⟩

/-- C5 counterexample: with the resolved window `(0, 10)`, an event whose
timestamp equals the end bound 10 is *included* by the aggregation
(`viewed_at__lte`), producing a row with one view — the claim's
inclusive-exclusive reading would have produced no row at all. -/
theorem c5_counterexample :
    get_blog_views_analytics "country" "month" none (some 0) (some 10) 0 0 0 0 0 [vUSA]
      = .ok [⟨"USA", 1, 1⟩]
    ∧ get_blog_views_analytics "country" "month" none (some 0) (some 10) 0 0 0 0 0 [vUSA]
      ≠ .ok [] := by
  constructor
  · rfl
  · intro h
    rw [show get_blog_views_analytics "country" "month" none (some 0) (some 10) 0 0 0 0 0 [vUSA]
      = .ok [⟨"USA", 1, 1⟩] from rfl] at h
    simp at h

/-- C5 (amended): the resolved time window is applied to the event set as
an inclusive-*inclusive* interval: with both bounds present a record
enters the aggregation iff `start ≤ t` and `t ≤ end` (timestamps equal to
the end bound are included). -/
theorem c5_window_inclusive (timeOf : α → Int) (s e : Int) (xs : List α) (x : α) :
    x ∈ applyWindowBy timeOf (some s) (some e) xs
      ↔ x ∈ xs ∧ s ≤ timeOf x ∧ timeOf x ≤ e := by
  simp [applyWindowBy, List.mem_filter]
  tauto

/-- C6 counterexample: `get_time_range("all", start, None)` discards the
explicit start bound and returns `(None, None)` — the single explicit
bound does *not* override its side for the `all` keyword. -/
theorem c6_counterexample :
    get_time_range "all" (some 5) none 100 1 2 3 4 = .ok (none, none)
    ∧ get_time_range "all" (some 5) none 100 1 2 3 4 ≠ .ok (some 5, none) := by
  constructor
  · rfl
  · intro h
    rw [show get_time_range "all" (some 5) none 100 1 2 3 4 = .ok (none, none) from rfl] at h
    simp at h

/-- C6 (amended): when both explicit bounds are supplied they are returned
verbatim for every keyword; for `day`/`week`/`month`/`year` a single
explicit bound overrides only its side of the computed default (the other
side keeping the computed start resp. `now`); `all` without both bounds
resolves to `(None, None)`, ignoring any single explicit bound. -/
theorem c6_resolver (rt : String) (sd ed : Option Int) (now dS wS mS yS : Int) :
    (sd.isSome = true → ed.isSome = true →
      get_time_range rt sd ed now dS wS mS yS = .ok (sd, ed))
    ∧ (rt = "all" → ¬(sd.isSome = true ∧ ed.isSome = true) →
      get_time_range rt sd ed now dS wS mS yS = .ok (none, none))
    ∧ (rt = "day" → ¬(sd.isSome = true ∧ ed.isSome = true) →
      get_time_range rt sd ed now dS wS mS yS
        = .ok (some (sd.getD dS), some (ed.getD now)))
    ∧ (rt = "week" → ¬(sd.isSome = true ∧ ed.isSome = true) →
      get_time_range rt sd ed now dS wS mS yS
        = .ok (some (sd.getD wS), some (ed.getD now)))
    ∧ (rt = "month" → ¬(sd.isSome = true ∧ ed.isSome = true) →
      get_time_range rt sd ed now dS wS mS yS
        = .ok (some (sd.getD mS), some (ed.getD now)))
    ∧ (rt = "year" → ¬(sd.isSome = true ∧ ed.isSome = true) →
      get_time_range rt sd ed now dS wS mS yS
        = .ok (some (sd.getD yS), some (ed.getD now))) := by
  have hand : ∀ h : ¬(sd.isSome = true ∧ ed.isSome = true),
      ¬((sd.isSome && ed.isSome) = true) := by
    intro h hb
    exact h (Bool.and_eq_true_iff.mp hb)
  refine ⟨?_, ?_, ?_, ?_, ?_, ?_⟩
  · intro h1 h2
    unfold get_time_range
    rw [if_pos (by rw [h1, h2]; rfl)]
  · intro hrt h
    subst hrt
    unfold get_time_range
    rw [if_neg (hand h), if_pos rfl]
  · intro hrt h
    subst hrt
    unfold get_time_range
    rw [if_neg (hand h), if_neg (by decide), if_pos rfl]
  · intro hrt h
    subst hrt
    unfold get_time_range
    rw [if_neg (hand h), if_neg (by decide), if_neg (by decide), if_pos rfl]
  · intro hrt h
    subst hrt
    unfold get_time_range
    rw [if_neg (hand h), if_neg (by decide), if_neg (by decide), if_neg (by decide),
      if_pos rfl]
  · intro hrt h
    subst hrt
    unfold get_time_range
    rw [if_neg (hand h), if_neg (by decide), if_neg (by decide), if_neg (by decide),
      if_neg (by decide), if_pos rfl]

/-- C6 witness: a single explicit start bound overrides only the start of
`day`'s default, explicit bounds are returned verbatim under `all`, and a
lone end bound under `all` is dropped. -/
theorem c6_resolver_witness :
    get_time_range "day" (some 5) none 100 1 2 3 4 = .ok (some 5, some 100)
    ∧ get_time_range "all" (some 5) (some 7) 100 1 2 3 4 = .ok (some 5, some 7)
    ∧ get_time_range "all" none (some 7) 100 1 2 3 4 = .ok (none, none) :=
  ⟨(c6_resolver "day" (some 5) none 100 1 2 3 4).2.2.1 rfl (by simp),
   (c6_resolver "all" (some 5) (some 7) 100 1 2 3 4).1 rfl rfl,
   (c6_resolver "all" none (some 7) 100 1 2 3 4).2.1 rfl (by simp)⟩

/-- C8: the pager reports the exact input length as `count`, computes
`total_pages` as the rational ceiling of `count / page_size` when the page
size is positive (and 0 otherwise, never dividing by zero), slices
`records[(page-1)*page_size : page*page_size]`, returns an empty slice —
not an error — for a page beyond the last, and behaves as documented on
the 12-record example. -/
theorem c8_paginate (l : List α) (page psize : Int) (hp : 1 ≤ page) :
    (paginate_results l page psize).count = l.length
    ∧ (psize ≤ 0 → (paginate_results l page psize).total_pages = 0)
    ∧ (0 < psize →
        (paginate_results l page psize).total_pages = ⌈(l.length : ℚ) / (psize : ℚ)⌉)
    ∧ (0 < psize →
        (paginate_results l page psize).results
          = (l.drop ((page - 1) * psize).toNat).take psize.toNat)
    ∧ (0 < psize → (paginate_results l page psize).total_pages < page →
        (paginate_results l page psize).results = [])
    ∧ (paginate_results (List.range 12) 2 5).results = [5, 6, 7, 8, 9]
    ∧ (paginate_results (List.range 12) 2 5).total_pages = 3
    ∧ (paginate_results (List.range 12) 3 5).results = [10, 11]
    ∧ (paginate_results (List.range 12) 4 5).results = [] := by
  have htp1 : 0 < psize →
      (paginate_results l page psize).total_pages = ⌈(l.length : ℚ) / (psize : ℚ)⌉ := by
    intro hs
    show (if 0 < psize then ⌈(l.length : ℚ) / (psize : ℚ)⌉ else 0) = _
    rw [if_pos hs]
  have hslice : 0 < psize →
      (paginate_results l page psize).results
        = (l.drop ((page - 1) * psize).toNat).take psize.toNat := by
    intro hs
    show pySlice l ((page - 1) * psize) ((page - 1) * psize + psize) = _
    unfold pySlice pySliceIdx
    have ha0 : 0 ≤ (page - 1) * psize := mul_nonneg (by omega) (by omega)
    have hb0 : 0 ≤ (page - 1) * psize + psize := by omega
    rw [if_neg (not_lt.mpr ha0), if_neg (not_lt.mpr hb0), List.drop_take]
    by_cases hlen : ((page - 1) * psize).toNat ≤ l.length
    · rw [min_eq_left hlen]
      rw [List.take_eq_take]
      simp only [List.length_drop]
      omega
    · rw [min_eq_right (show l.length ≤ ((page - 1) * psize + psize).toNat by omega),
        min_eq_right (show l.length ≤ ((page - 1) * psize).toNat by omega),
        List.drop_length, List.drop_eq_nil_of_le (by omega)]
      simp
  have hbeyond : 0 < psize → (paginate_results l page psize).total_pages < page →
      (paginate_results l page psize).results = [] := by
    intro hs hbig
    rw [htp1 hs] at hbig
    rw [hslice hs]
    have hsq : (0 : ℚ) < (psize : ℚ) := by exact_mod_cast hs
    have hcl : (l.length : ℤ) ≤ ⌈(l.length : ℚ) / (psize : ℚ)⌉ * psize := by
      have h1 := Int.le_ceil ((l.length : ℚ) / (psize : ℚ))
      rw [div_le_iff₀ hsq] at h1
      exact_mod_cast h1
    have hmul : ⌈(l.length : ℚ) / (psize : ℚ)⌉ * psize ≤ (page - 1) * psize :=
      mul_le_mul_of_nonneg_right (by omega) (by omega)
    rw [List.drop_eq_nil_of_le (by omega)]
    simp
  refine ⟨rfl, ?_, htp1, hslice, hbeyond, by decide, ?_, by decide, by decide⟩
  · intro h
    show (if 0 < psize then ⌈(l.length : ℚ) / (psize : ℚ)⌉ else 0) = 0
    rw [if_neg (not_lt.mpr h)]
  · show (if (0 : ℤ) < 5 then ⌈((List.range 12).length : ℚ) / ((5 : ℤ) : ℚ)⌉ else 0) = 3
    rw [if_pos (by decide), List.length_range]
    rw [Int.ceil_eq_iff]
    constructor <;> norm_num

/-- C8 witness: the theorem instantiated on the 12-record example at
page 2 / page size 5. -/
theorem c8_paginate_witness :
    (paginate_results (List.range 12) 2 5).count = (List.range 12).length
    ∧ (paginate_results (List.range 12) 2 5).total_pages
        = ⌈((List.range 12).length : ℚ) / ((5 : ℤ) : ℚ)⌉
    ∧ (paginate_results (List.range 12) 2 5).results
        = ((List.range 12).drop (((2 : ℤ) - 1) * 5).toNat).take (5 : ℤ).toNat := by
  have h := c8_paginate (List.range 12) 2 5 (by decide)
  exact ⟨h.1, h.2.2.1 (by decide), h.2.2.2.1 (by decide)⟩

theorem ebind_ok (a : α) (f : α → Except ε β) : (Except.ok a).bind f = f a := rfl

theorem ebind_error (e : ε) (f : α → Except ε β) :
    (Except.error e).bind f = Except.error e := rfl

theorem sortDescBy_sorted (z : α → Nat) (l : List α) :
    List.Sorted (fun a b => z b ≤ z a) (sortDescBy z l) := by
  haveI : IsTotal α (fun a b => z b ≤ z a) := ⟨fun a b => le_total (z b) (z a)⟩
  haveI : IsTrans α (fun a b => z b ≤ z a) := ⟨fun _ _ _ h1 h2 => le_trans h2 h1⟩
  exact List.sorted_insertionSort _ _

theorem take10_shape_spec {β : Type} (rows : List (β × Nat × Nat))
    (shape : (β × Nat × Nat) → TopRec) (hz : ∀ r, (shape r).z = r.2.2) :
    (((sortDescBy (fun r => r.2.2) rows).take 10).map shape).length ≤ 10
    ∧ List.Chain' (fun a b => b.z ≤ a.z)
        (((sortDescBy (fun r => r.2.2) rows).take 10).map shape) := by
  constructor
  · rw [List.length_map]
    exact List.length_take_le _ _
  · have hs := sortDescBy_sorted (fun r => r.2.2) rows
    have h1 : List.Pairwise (fun a b => b.2.2 ≤ a.2.2)
        ((sortDescBy (fun r => r.2.2) rows).take 10) :=
      List.Pairwise.sublist (List.take_sublist 10 _) hs
    have h2 : List.Pairwise (fun a b => b.z ≤ a.z)
        (((sortDescBy (fun r => r.2.2) rows).take 10).map shape) := by
      rw [List.pairwise_map]
      exact h1.imp (fun hab => by rw [hz, hz]; exact hab)
    exact h2.chain'

/-- C7: whatever the dataset, compiled filter and resolved window, each of
the three top rankings returns at most 10 rows, with the total-view column
`z` non-increasing along the result. -/
theorem c7_top_bounded_sorted (top range_type : String) (filters : Option Json)
    (sd ed : Option Int) (now dS wS mS yS : Int) (views : List ViewRec)
    (rs : List TopRec)
    (htop : top = "user" ∨ top = "country" ∨ top = "blog")
    (h : get_top_analytics top range_type filters sd ed now dS wS mS yS views
      = .ok rs) :
    rs.length ≤ 10 ∧ List.Chain' (fun a b => b.z ≤ a.z) rs := by
  unfold get_top_analytics at h
  cases hT : get_time_range range_type sd ed now dS wS mS yS with
  | error e =>
    rw [hT, ebind_error] at h
    exact absurd h (by simp)
  | ok se =>
    rw [hT, ebind_ok] at h
    cases hF : apply_dynamic_filters
        (applyWindowBy ViewRec.viewedAt se.1 se.2 views) filters with
    | error err =>
      rw [hF, ebind_error] at h
      exact absurd h (by simp)
    | ok qs =>
      rw [hF, ebind_ok] at h
      rcases htop with rfl | rfl | rfl
      · rw [if_pos rfl] at h
        obtain rfl := (Except.ok.injEq _ _).mp h.symm
        exact take10_shape_spec _ _ (fun r => rfl)
      · rw [if_neg (by decide), if_pos rfl] at h
        obtain rfl := (Except.ok.injEq _ _).mp h.symm
        exact take10_shape_spec _ _ (fun r => rfl)
      · rw [if_neg (by decide), if_neg (by decide), if_pos rfl] at h
        obtain rfl := (Except.ok.injEq _ _).mp h.symm
        exact take10_shape_spec _ _ (fun r => rfl)

/-- C7 witness: the theorem instantiated on a concrete one-event dataset
under the `user` ranking. -/
theorem c7_top_bounded_sorted_witness :
    ([⟨"user1", "1", 1⟩] : List TopRec).length ≤ 10
    ∧ List.Chain' (fun a b => b.z ≤ a.z) ([⟨"user1", "1", 1⟩] : List TopRec) :=
  c7_top_bounded_sorted "user" "all" none none none 0 0 0 0 0 [vUSA]
    [⟨"user1", "1", 1⟩] (Or.inl rfl) rfl

theorem mkeys_nil : mkeys ([] : List (Int × β)) = [] := rfl

theorem mkeys_cons (k : Int) (v : β) (m : List (Int × β)) :
    mkeys ((k, v) :: m) = k :: mkeys m := rfl

theorem kfind_setKey_self (m : List (Int × β)) (k : Int) (v : β) :
    kfind (setKey m k v) k = some v := by
  induction m with
  | nil => simp [setKey, kfind]
  | cons hd tl ih =>
    obtain ⟨k₀, v₀⟩ := hd
    by_cases hk : k₀ = k
    · simp [setKey, hk, kfind]
    · simp [setKey, hk, kfind, ih]

theorem kfind_setKey_ne (m : List (Int × β)) (k k' : Int) (v : β) (h : k ≠ k') :
    kfind (setKey m k v) k' = kfind m k' := by
  induction m with
  | nil => simp [setKey, kfind, h]
  | cons hd tl ih =>
    obtain ⟨k₀, v₀⟩ := hd
    by_cases hk : k₀ = k
    · subst hk
      simp [setKey, kfind, h, ih]
    · simp [setKey, hk, kfind, ih]

theorem setKey_append (m : List (Int × β)) (k : Int) (v : β) (h : k ∉ mkeys m) :
    setKey m k v = m ++ [(k, v)] := by
  induction m with
  | nil => simp [setKey]
  | cons hd tl ih =>
    obtain ⟨k₀, v₀⟩ := hd
    rw [mkeys_cons, List.mem_cons] at h
    push_neg at h
    simp [setKey, Ne.symm h.1, ih h.2]

theorem mkeys_setKey_mem (m : List (Int × β)) (k : Int) (v : β) (h : k ∈ mkeys m) :
    mkeys (setKey m k v) = mkeys m := by
  induction m with
  | nil => simp [mkeys_nil] at h
  | cons hd tl ih =>
    obtain ⟨k₀, v₀⟩ := hd
    by_cases hk : k₀ = k
    · simp [setKey, hk, mkeys_cons]
    · rw [mkeys_cons, List.mem_cons] at h
      rcases h with h | h
      · exact absurd h.symm hk
      · simp [setKey, hk, mkeys_cons, ih h]

theorem mkeys_setKey_not_mem (m : List (Int × β)) (k : Int) (v : β) (h : k ∉ mkeys m) :
    mkeys (setKey m k v) = mkeys m ++ [k] := by
  rw [setKey_append m k v h]
  simp [mkeys]

theorem kfind_eq_none {m : List (Int × β)} {k : Int} (h : k ∉ mkeys m) :
    kfind m k = none := by
  induction m with
  | nil => rfl
  | cons hd tl ih =>
    obtain ⟨k₀, v₀⟩ := hd
    rw [mkeys_cons, List.mem_cons] at h
    push_neg at h
    simp [kfind, Ne.symm h.1, ih h.2]

theorem perfPhase1_append (bs : List (Int × Nat)) :
    ∀ m : List (Int × Nat × Nat), (∀ p ∈ mkeys bs, p ∉ mkeys m) → (mkeys bs).Nodup →
      perfPhase1 m bs = m ++ bs.map (fun pc => (pc.1, (pc.2, 0))) := by
  induction bs with
  | nil =>
    intro m _ _
    simp [perfPhase1]
  | cons hd tl ih =>
    intro m hdis hnd
    obtain ⟨p, c⟩ := hd
    rw [mkeys_cons, List.nodup_cons] at hnd
    rw [perfPhase1, setKey_append m p (c, 0) (hdis p (by rw [mkeys_cons]; simp))]
    rw [ih (m ++ [(p, (c, 0))]) ?_ hnd.2]
    · simp
    · intro q hq
      have hq1 : q ≠ p := fun hqp => hnd.1 (hqp ▸ hq)
      have hq2 : q ∉ mkeys m := hdis q (by rw [mkeys_cons]; simp [hq])
      rw [show mkeys (m ++ [(p, (c, 0))]) = mkeys m ++ [p] from by simp [mkeys]]
      simp [hq1, hq2]

theorem perfPhase2_kfind (vs : List (Int × Nat)) :
    ∀ (m : List (Int × Nat × Nat)) (p : Int), (mkeys vs).Nodup →
      kfind (perfPhase2 m vs) p
        = if p ∈ mkeys vs
          then some ((kfindD m p (0, 0)).1, kfindD vs p 0)
          else kfind m p := by
  induction vs with
  | nil =>
    intro m p _
    simp [perfPhase2, mkeys_nil]
  | cons hd tl ih =>
    intro m p hnd
    obtain ⟨q, c⟩ := hd
    rw [mkeys_cons, List.nodup_cons] at hnd
    rw [perfPhase2, ih _ p hnd.2, mkeys_cons]
    by_cases hpq : p = q
    · subst hpq
      rw [if_neg hnd.1, if_pos (List.mem_cons_self _ _)]
      rw [kfind_setKey_self]
      simp [kfindD, kfind]
    · have hqp : q ≠ p := Ne.symm hpq
      by_cases hpt : p ∈ mkeys tl
      · rw [if_pos hpt, if_pos (List.mem_cons_of_mem _ hpt)]
        rw [show kfindD (setKey m q ((kfindD m q (0, 0)).1, c)) p (0, 0)
          = kfindD m p (0, 0) from by
            simp [kfindD, kfind_setKey_ne _ _ _ _ hqp]]
        simp [kfindD, kfind, hqp]
      · rw [if_neg hpt, if_neg (by rw [List.mem_cons]; push_neg; exact ⟨hpq, hpt⟩)]
        exact kfind_setKey_ne _ _ _ _ hqp

theorem perfPhase2_mkeys (vs : List (Int × Nat)) :
    ∀ m : List (Int × Nat × Nat), (mkeys vs).Nodup →
      mkeys (perfPhase2 m vs)
        = mkeys m ++ (mkeys vs).filter (fun p => decide (p ∉ mkeys m)) := by
  induction vs with
  | nil =>
    intro m _
    simp [perfPhase2, mkeys_nil]
  | cons hd tl ih =>
    intro m hnd
    obtain ⟨q, c⟩ := hd
    rw [mkeys_cons, List.nodup_cons] at hnd
    rw [perfPhase2, ih _ hnd.2, mkeys_cons]
    by_cases hq : q ∈ mkeys m
    · rw [mkeys_setKey_mem _ _ _ hq]
      rw [List.filter_cons]
      rw [if_neg (by simp [hq])]
    · rw [mkeys_setKey_not_mem _ _ _ hq]
      rw [List.filter_cons, if_pos (by simp [hq])]
      have hfeq : (mkeys tl).filter (fun p => decide (p ∉ mkeys m ++ [q]))
          = (mkeys tl).filter (fun p => decide (p ∉ mkeys m)) := by
        apply List.filter_congr
        intro p hp
        have hpq : p ≠ q := fun h => hnd.1 (h ▸ hp)
        simp [hpq]
      rw [hfeq]
      simp

theorem kfind_phase1_map (bs : List (Int × Nat)) (p : Int) :
    kfind (bs.map (fun pc => (pc.1, (pc.2, 0)))) p
      = (kfind bs p).map (fun c => (c, 0)) := by
  induction bs with
  | nil => simp [kfind]
  | cons hd tl ih =>
    obtain ⟨q, c⟩ := hd
    by_cases hq : q = p
    · simp [kfind, hq]
    · simp [kfind, hq, ih]

theorem mkeys_phase1_map (bs : List (Int × Nat)) :
    mkeys (bs.map (fun pc => (pc.1, (pc.2, 0)))) = mkeys bs := by
  simp [mkeys]

theorem buildPeriodMap_kfindD (bs vs : List (Int × Nat))
    (hb : (mkeys bs).Nodup) (hv : (mkeys vs).Nodup) (p : Int) :
    kfindD (buildPeriodMap bs vs) p (0, 0) = (kfindD bs p 0, kfindD vs p 0) := by
  unfold buildPeriodMap
  rw [perfPhase1_append bs [] (by simp [mkeys_nil]) hb, List.nil_append]
  unfold kfindD
  rw [perfPhase2_kfind vs _ p hv]
  by_cases hp : p ∈ mkeys vs
  · rw [if_pos hp]
    unfold kfindD
    rw [kfind_phase1_map]
    cases kfind bs p <;> simp
  · rw [if_neg hp]
    rw [kfind_phase1_map, kfind_eq_none hp]
    cases hbs : kfind bs p <;> simp

theorem buildPeriodMap_mkeys (bs vs : List (Int × Nat))
    (hb : (mkeys bs).Nodup) (hv : (mkeys vs).Nodup) :
    mkeys (buildPeriodMap bs vs)
      = mkeys bs ++ (mkeys vs).filter (fun p => decide (p ∉ mkeys bs)) := by
  unfold buildPeriodMap
  rw [perfPhase1_append bs [] (by simp [mkeys_nil]) hb, List.nil_append]
  rw [perfPhase2_mkeys vs _ hv, mkeys_phase1_map]

theorem buildPeriodMap_keys_nodup (bs vs : List (Int × Nat))
    (hb : (mkeys bs).Nodup) (hv : (mkeys vs).Nodup) :
    (mkeys (buildPeriodMap bs vs)).Nodup := by
  rw [buildPeriodMap_mkeys bs vs hb hv]
  apply List.Nodup.append hb (hv.filter _)
  intro p hp hpf
  have := List.of_mem_filter hpf
  simp at this
  exact this hp

theorem buildPeriodMap_keys_perm (bs vs : List (Int × Nat))
    (hb : (mkeys bs).Nodup) (hv : (mkeys vs).Nodup) :
    (mkeys (buildPeriodMap bs vs)).Perm ((mkeys bs ++ mkeys vs).dedup) := by
  rw [List.perm_ext_iff_of_nodup (buildPeriodMap_keys_nodup bs vs hb hv)
    (List.nodup_dedup _)]
  intro p
  rw [buildPeriodMap_mkeys bs vs hb hv, List.mem_dedup, List.mem_append,
    List.mem_append, List.mem_filter]
  by_cases hpb : p ∈ mkeys bs <;> simp [hpb]

theorem sortedKeys_eq (bs vs : List (Int × Nat))
    (hb : (mkeys bs).Nodup) (hv : (mkeys vs).Nodup) :
    List.insertionSort (· ≤ ·) (mkeys (buildPeriodMap bs vs))
      = List.insertionSort (· ≤ ·) ((mkeys bs ++ mkeys vs).dedup) := by
  exact List.eq_of_perm_of_sorted
    ((List.perm_insertionSort _ _).trans
      ((buildPeriodMap_keys_perm bs vs hb hv).trans
        (List.perm_insertionSort _ _).symm))
    (List.sorted_insertionSort (fun a b : ℤ => a ≤ b) _)
    (List.sorted_insertionSort (fun a b : ℤ => a ≤ b) _)

theorem perfWalk_eq_specWalk (label : Int → String) (M : List (Int × Nat × Nat))
    (bs vs : List (Int × Nat)) (ps : List Int)
    (h : ∀ p ∈ ps, kfindD M p (0, 0) = (kfindD bs p 0, kfindD vs p 0)) :
    ∀ prev, perfWalk label M ps prev = specPerfWalk label bs vs ps prev := by
  induction ps with
  | nil => intro prev; rfl
  | cons p ps ih =>
    intro prev
    have hp := h p (by simp)
    rw [perfWalk, specPerfWalk]
    rw [show (kfindD M p (0, 0)).1 = kfindD bs p 0 from by rw [hp],
      show (kfindD M p (0, 0)).2 = kfindD vs p 0 from by rw [hp]]
    rw [ih (fun q hq => h q (by simp [hq]))]

/-- C2: the performance strategy's merge takes the union of the period
keys of the two stats maps (each side defaulting to 0 when missing),
emits the merged periods in ascending order, and walks them carrying
`previousViews` (initially 0), emitting
`{x: "<label> (<blogCount> blogs)", y: views, z: growth(views, previous)}`
— the code's map-merge-and-walk equals the spec-modelled series. -/
theorem c2_performance_merge (label : Int → String) (bs vs : List (Int × Nat))
    (hb : (mkeys bs).Nodup) (hv : (mkeys vs).Nodup) :
    mergeAndWalk label bs vs = specPerfSeries label bs vs := by
  simp only [mergeAndWalk, specPerfSeries]
  rw [sortedKeys_eq bs vs hb hv]
  exact perfWalk_eq_specWalk label _ bs vs _
    (fun p _ => buildPeriodMap_kfindD bs vs hb hv p) 0

/-- C2 witness: the theorem instantiated on concrete stats maps with
periods on both, one, and neither side. -/
theorem c2_performance_merge_witness :
    mergeAndWalk (fun p => toString p) [(1, 2), (3, 1)] [(3, 5), (4, 7)]
      = specPerfSeries (fun p => toString p) [(1, 2), (3, 1)] [(3, 5), (4, 7)] :=
  c2_performance_merge _ _ _ (by decide) (by decide)

theorem kfind_mapped (ps : List Int) (g : Int → β) (p : Int) :
    kfind (ps.map (fun q => (q, g q))) p = if p ∈ ps then some (g p) else none := by
  induction ps with
  | nil => simp [kfind]
  | cons q tl ih =>
    rw [List.map_cons]
    by_cases hq : q = p
    · subst hq
      simp [kfind]
    · have hnc : (p ∈ q :: tl) ↔ (p ∈ tl) := by
        rw [List.mem_cons]
        constructor
        · rintro (hpq | hmem)
          · exact absurd hpq.symm hq
          · exact hmem
        · exact Or.inr
      simp only [kfind, if_neg hq]
      rw [ih]
      by_cases hpt : p ∈ tl
      · rw [if_pos hpt, if_pos (hnc.mpr hpt)]
      · rw [if_neg hpt, if_neg (fun hmem => hpt (hnc.mp hmem))]

theorem kfindD_aggregate (periodOf : α → Int) (xs : List α) (p : Int) :
    kfindD (aggregateByPeriod periodOf xs) p 0
      = xs.countP (fun x => decide (periodOf x = p)) := by
  unfold aggregateByPeriod kfindD
  rw [kfind_mapped]
  by_cases hp : p ∈ List.insertionSort (· ≤ ·) ((xs.map periodOf).dedup)
  · rw [if_pos hp]
    rfl
  · rw [if_neg hp]
    rw [List.mem_insertionSort, List.mem_dedup] at hp
    show (0 : Nat) = _
    symm
    rw [List.countP_eq_zero]
    intro x hx hdx
    rw [decide_eq_true_eq] at hdx
    exact hp (hdx ▸ List.mem_map_of_mem periodOf hx)

theorem aggregate_keys_nodup (periodOf : α → Int) (xs : List α) :
    (mkeys (aggregateByPeriod periodOf xs)).Nodup := by
  unfold aggregateByPeriod
  have hm : mkeys ((List.insertionSort (· ≤ ·) ((xs.map periodOf).dedup)).map
      (fun p => (p, xs.countP (fun x => decide (periodOf x = p)))))
      = List.insertionSort (· ≤ ·) ((xs.map periodOf).dedup) := by
    simp only [mkeys, List.map_map]
    rw [show (Prod.fst ∘ fun p : ℤ =>
      (p, xs.countP (fun x => decide (periodOf x = p)))) = id from rfl]
    exact List.map_id _
  rw [hm]
  exact (List.perm_insertionSort _ _).symm.nodup (List.nodup_dedup _)

/-- C4: in the performance strategy, the compiled dynamic filter touches
only the view-count side of the merged period map.  For any compiled
filter run, the blog-count component of the merged map at every period
equals the one obtained with no filter supplied, and equals the count of
(time/actor-narrowed) content items created in that period; the view
count at every period is the count of *filtered* events in that period;
and supplying no filter leaves the event set untouched. -/
theorem c4_filter_frame (compare : String) (user_id : Option Nat)
    (filters : Option Json) (sd ed : Option Int) (now : Int) (trunc : Int → Int)
    (label : Int → String) (blogs : List BlogRec) (views : List ViewRec)
    (filtered : List ViewRec)
    (h : apply_dynamic_filters (perf_viewQraw compare user_id sd ed now views) filters
      = .ok filtered) :
    (∀ p, (kfindD (perf_map compare user_id sd ed now trunc blogs filtered) p (0, 0)).1
      = (kfindD (perf_map compare user_id sd ed now trunc blogs
          (perf_viewQraw compare user_id sd ed now views)) p (0, 0)).1)
    ∧ (∀ p, (kfindD (perf_map compare user_id sd ed now trunc blogs filtered) p (0, 0)).1
      = (perf_blogQ compare user_id sd ed now blogs).countP
          (fun b => decide (trunc b.createdAt = p)))
    ∧ (∀ p, (kfindD (perf_map compare user_id sd ed now trunc blogs filtered) p (0, 0)).2
      = filtered.countP (fun v => decide (trunc v.viewedAt = p)))
    ∧ apply_dynamic_filters (perf_viewQraw compare user_id sd ed now views) none
      = .ok (perf_viewQraw compare user_id sd ed now views)
    ∧ ((compare = "day" ∨ compare = "week" ∨ compare = "month" ∨ compare = "year") →
      get_performance_analytics compare user_id filters sd ed now trunc label blogs views
        = .ok (mergeAndWalk label
            (perf_bs compare user_id sd ed now trunc blogs) (perf_vs trunc filtered))) := by
  have hbk : ∀ f : List ViewRec, ∀ p : Int,
      kfindD (perf_map compare user_id sd ed now trunc blogs f) p (0, 0)
        = (kfindD (perf_bs compare user_id sd ed now trunc blogs) p 0,
           kfindD (perf_vs trunc f) p 0) := by
    intro f p
    unfold perf_map
    exact buildPeriodMap_kfindD _ _
      (aggregate_keys_nodup _ _) (aggregate_keys_nodup _ _) p
  refine ⟨fun p => ?_, fun p => ?_, fun p => ?_, rfl, fun hc => ?_⟩
  · rw [hbk, hbk]
  · rw [hbk]
    exact kfindD_aggregate _ _ p
  · rw [hbk]
    exact kfindD_aggregate _ _ p
  · unfold get_performance_analytics
    rw [if_pos hc, h, ebind_ok]

/-- C4 witness: the theorem instantiated on a two-event dataset with a
country filter that keeps only the USA event; the blog-count at the
blog's period and the view-count at the kept event's period are checked. -/
theorem c4_filter_frame_witness :
    (kfindD (perf_map "week" none (some 0) (some 20) 50 (fun t => t)
        [⟨3, 1⟩] [vUSA]) 3 (0, 0)).1
      = (kfindD (perf_map "week" none (some 0) (some 20) 50 (fun t => t)
          [⟨3, 1⟩] (perf_viewQraw "week" none (some 0) (some 20) 50
            [vUSA, vCanada])) 3 (0, 0)).1
    ∧ (kfindD (perf_map "week" none (some 0) (some 20) 50 (fun t => t)
        [⟨3, 1⟩] [vUSA]) 10 (0, 0)).2
      = [vUSA].countP (fun v => decide ((fun t : Int => t) v.viewedAt = 10)) := by
  have h := c4_filter_frame "week" none
    (some (Json.obj [("eq", Json.obj [("country__name", Json.str "USA")])]))
    (some 0) (some 20) 50 (fun t => t) (fun p => toString p)
    [⟨3, 1⟩] [vUSA, vCanada] [vUSA] rfl
  exact ⟨h.1 3, h.2.2.1 10⟩
